import Mathlib

/-!
Verification of the goerrorkit error-classification library.

The Go sources are shallowly embedded: Go strings become `List Char`
(so that every operation is structurally recursive and kernel-evaluable),
Go maps with string keys become association lists with an insert that
overwrites in place, a nil-able Go `error` becomes `Option GoError`, and
the runtime services (`runtime.Caller`, `debug.Stack`) become explicit
inputs.  Each embedded definition mirrors one function of the source
(`stacktrace.go`, `error.go`, `handler.go`, `logger.go`).
-/

namespace Goerrorkit

/-- Go strings are modelled as lists of characters. -/
abbrev Str := List Char

/-- Model of Go `strings.Contains s sub`: `sub` occurs as a contiguous
substring of `s` (the empty string occurs in every string). -/
def containsSub : Str → Str → Bool
  | [], sub => sub.isEmpty
  | c :: t, sub => sub.isPrefixOf (c :: t) || containsSub t sub

/-- Model of Go `strings.Split` with a single-character separator. -/
def splitChar (sep : Char) : Str → List Str
  | [] => [[]]
  | c :: t =>
    if c = sep then [] :: splitChar sep t
    else
      match splitChar sep t with
      | [] => [[c]]
      | h :: r => (c :: h) :: r

/-- ASCII whitespace, the relevant subset of Go `unicode.IsSpace`. -/
def isSpace (c : Char) : Bool :=
  c = ' ' || c = '\t' || c = '\n' || c = '\r' || c = Char.ofNat 11 || c = Char.ofNat 12

/-- Drop leading whitespace characters. -/
def trimLeft : Str → Str
  | [] => []
  | c :: t => if isSpace c then trimLeft t else c :: t

/-- Model of Go `strings.TrimSpace`: drop leading and trailing whitespace. -/
def trimSpace (s : Str) : Str :=
  (trimLeft (trimLeft s).reverse).reverse

/-- Split at every whitespace character (keeping empty pieces). -/
def splitWS : Str → List Str
  | [] => [[]]
  | c :: t =>
    if isSpace c then [] :: splitWS t
    else
      match splitWS t with
      | [] => [[c]]
      | h :: r => (c :: h) :: r

/-- Model of Go `strings.Fields`: the maximal whitespace-free pieces. -/
def goFields (s : Str) : List Str :=
  (splitWS s).filter (fun w => !w.isEmpty)

/-- Index of the first occurrence of a character, if any
(model of Go `strings.Index` with a one-character needle). -/
def idxOfChar (c : Char) : Str → Option Nat
  | [] => none
  | d :: t => if d = c then some 0 else (idxOfChar c t).map (· + 1)

/-- Index of the last occurrence of a character, if any
(model of Go `strings.LastIndex` with a one-character needle). -/
def lastIdxOfChar (c : Char) (s : Str) : Option Nat :=
  (idxOfChar c s.reverse).map (fun i => s.length - 1 - i)

/-- Embedding of the truncation `if idx := strings.Index(s, "("); idx > 0`
used on frame lines to strip the parameter list of a function signature. -/
def truncAtParen (s : Str) : Str :=
  match idxOfChar '(' s with
  | some idx => if 0 < idx then s.take idx else s
  | none => s

/-- Model of Go `filepath.Base` on slash-separated paths. -/
def goFilepathBase (s : Str) : Str :=
  if s.isEmpty then ['.']
  else
    let s1 := (s.reverse.dropWhile (fun c => c = '/')).reverse
    let s2 :=
      match lastIdxOfChar '/' s1 with
      | some i => s1.drop (i + 1)
      | none => s1
    if s2.isEmpty then ['/'] else s2

/-- Numeric value of a digit string. -/
def digitsToNat (s : Str) : Nat :=
  s.foldl (fun acc c => acc * 10 + (c.toNat - 48)) 0

/-- Model of `fmt.Sscanf(s, "%d", &line)` where `line` starts at `0`:
skip spaces, read an optionally signed run of digits, and leave the
target unchanged (at `0`) when nothing parses. -/
def parseGoInt (s : Str) : Int :=
  let t := s.dropWhile isSpace
  match t with
  | '-' :: r =>
    let d := r.takeWhile Char.isDigit
    if d.isEmpty then 0 else -(digitsToNat d : Int)
  | '+' :: r =>
    let d := r.takeWhile Char.isDigit
    if d.isEmpty then 0 else (digitsToNat d : Int)
  | _ =>
    let d := t.takeWhile Char.isDigit
    if d.isEmpty then 0 else (digitsToNat d : Int)

/-- Decimal rendering of an integer, modelling `fmt.Sprintf("%d", n)`. -/
def intToStr (n : Int) : Str := (toString n).data

/-- Embedding of `StackTraceConfig` from `stacktrace.go`. -/
structure StackTraceConfig where
  SkipPackages : List Str
  SkipFunctions : List Str
  IncludePackages : List Str
  ShowFullPath : Bool

/-- Embedding of the `defaultConfig` value of `stacktrace.go`. -/
def defaultConfig : StackTraceConfig :=
  { SkipPackages := ["runtime".data, "runtime/debug".data]
    SkipFunctions :=
      ["formatStackTraceArray".data, "getActualPanicLocation".data,
       "HandlePanic".data, ".func".data]
    IncludePackages := []
    ShowFullPath := false }

/-- Embedding of `isUserFunction` from `stacktrace.go`: runtime internals
are always rejected; a non-empty include list is an allow-list matching
`pkg ++ "."` as prefix or substring; otherwise the skip list rejects by
the same matching and everything else is accepted. -/
def isUserFunction (cfg : StackTraceConfig) (line : Str) : Bool :=
  if "runtime.".data.isPrefixOf line || "runtime/debug.".data.isPrefixOf line then false
  else if 0 < cfg.IncludePackages.length then
    cfg.IncludePackages.any (fun pkg =>
      (pkg ++ ".".data).isPrefixOf line || containsSub line (pkg ++ ".".data))
  else if cfg.SkipPackages.any (fun pkg =>
      (pkg ++ ".".data).isPrefixOf line || containsSub line (pkg ++ ".".data)) then false
  else true

/-- Embedding of `shouldSkipFunction` from `stacktrace.go`. -/
def shouldSkipFunction (cfg : StackTraceConfig) (line : Str) : Bool :=
  cfg.SkipFunctions.any (fun skipFunc => containsSub line skipFunc)

/-- Embedding of `formatFunctionName` from `stacktrace.go`: keep the full
name when `ShowFullPath` is set, otherwise keep the last `/`-segment. -/
def formatFunctionName (cfg : StackTraceConfig) (fullName : Str) : Str :=
  if cfg.ShowFullPath then fullName
  else
    match (splitChar '/' fullName).getLast? with
    | some last => last
    | none => fullName

/-- Embedding of lines 97-110 of `getActualPanicLocation`
(`stacktrace.go`): parse `file` and `line` from the location line that
follows a frame line.  The `file` stays empty when the next line is
missing, has no fields, or its first field has no colon past position 0. -/
def parseLocation (rest : List Str) : Str × Int :=
  match rest with
  | [] => ([], 0)
  | next :: _ =>
    match goFields (trimSpace next) with
    | [] => ([], 0)
    | fileAndLine :: _ =>
      match lastIdxOfChar ':' fileAndLine with
      | some idx =>
        if 0 < idx then
          (goFilepathBase (fileAndLine.take idx), parseGoInt (fileAndLine.drop (idx + 1)))
        else ([], 0)
      | none => ([], 0)

/-- Embedding of the scanning loop of `getActualPanicLocation`
(`stacktrace.go`): walk the lines carrying the `panicFound` flag; the
first `panic(`-prefixed line sets the flag, and once it is set the first
line classified by `isUserFunction` is taken as the panic frame. -/
def panicLocLoop (cfg : StackTraceConfig) : List Str → Bool → Str × Int × Str
  | [], _ => ([], 0, [])
  | l0 :: rest, panicFound =>
    let l := trimSpace l0
    if !panicFound && "panic(".data.isPrefixOf l then
      panicLocLoop cfg rest true
    else if panicFound && isUserFunction cfg l then
      let function := formatFunctionName cfg (truncAtParen l)
      let fl := parseLocation rest
      (fl.1, fl.2, function)
    else
      panicLocLoop cfg rest panicFound

/-- Embedding of `getActualPanicLocation` from `stacktrace.go`,
with the raw `debug.Stack()` text supplied as the `stack` argument. -/
def getActualPanicLocation (cfg : StackTraceConfig) (stack : Str) : Str × Int × Str :=
  let r := panicLocLoop cfg (splitChar '\n' stack) false
  if r.1 = [] then ("unknown".data, 0, "unknown".data) else r

/-- Embedding of the loop of `formatStackTraceArray` (`stacktrace.go`):
collect every frame accepted by `isUserFunction` and not rejected by
`shouldSkipFunction`, formatted as `function (file)`, skipping each
frame's location line via the `skipNext` flag. -/
def callChainLoop (cfg : StackTraceConfig) : List Str → Bool → List Str
  | [], _ => []
  | l0 :: rest, skipNext =>
    let l := trimSpace l0
    if skipNext then callChainLoop cfg rest false
    else if isUserFunction cfg l && !shouldSkipFunction cfg l then
      let funcName := formatFunctionName cfg (truncAtParen l)
      let entry : List Str :=
        match rest with
        | [] => []
        | next :: _ =>
          match goFields (trimSpace next) with
          | [] => []
          | fileAndLine :: _ =>
            let f :=
              match lastIdxOfChar '/' fileAndLine with
              | some i => fileAndLine.drop (i + 1)
              | none => fileAndLine
            [funcName ++ " (".data ++ f ++ ")".data]
      entry ++ callChainLoop cfg rest true
    else callChainLoop cfg rest false

/-- Embedding of `formatStackTraceArray` from `stacktrace.go`, with the
raw `debug.Stack()` text supplied as the `stack` argument. -/
def formatStackTraceArray (cfg : StackTraceConfig) (stack : Str) : List Str :=
  callChainLoop cfg (splitChar '\n' stack) false

/-- Result of `runtime.Caller` plus `runtime.FuncForPC`, the external
runtime service consumed by `getCallerInfo`: either no frame at the
requested depth, or a frame with file, line and an optional resolved
function name (`none` models a nil `runtime.Func`). -/
inductive CallerFrame : Type where
  | miss
  | frame (file : Str) (line : Int) (fname : Option Str)

/-- Embedding of `getCallerInfo` from `stacktrace.go`: sentinel triple
when the runtime yields no frame; otherwise the function name (or
`"unknown"` when unresolved) run through `formatFunctionName`, and the
file reduced to its base name. -/
def getCallerInfo (cfg : StackTraceConfig) (rc : CallerFrame) : Str × Int × Str :=
  match rc with
  | .miss => ("unknown".data, 0, "unknown".data)
  | .frame file line fname =>
    let function :=
      match fname with
      | some n => n
      | none => "unknown".data
    (goFilepathBase file, line, formatFunctionName cfg function)

/-- Values stored in the `map[string]interface{}` fields of `AppError`. -/
inductive Value : Type where
  | str (s : Str)
  | int (n : Int)
  | strList (l : List Str)
  | vmap (m : List (Str × Value))

mutual

/-- Embedding of the `AppError` struct of `error.go`, in field order:
`Type`, `Code`, `Message`, `Details`, `Data`, `Cause`, `RequestID` and
the private `logLevel`. -/
inductive AppError : Type where
  | mk (type_ : Str) (code : Int) (message : Str)
       (details : List (Str × Value)) (data : List (Str × Value))
       (cause : Option GoError) (requestID : Str) (logLevel : Str)

/-- A Go `error` value: either a plain error carrying its message or a
`*AppError` (the two cases distinguished by `ConvertToAppError`). -/
inductive GoError : Type where
  | plain (msg : Str)
  | appE (e : AppError)

end

/-- Field accessor for `AppError.Type`. -/
def AppError.ErrType : AppError → Str
  | .mk t _ _ _ _ _ _ _ => t

/-- Field accessor for `AppError.Code`. -/
def AppError.Code : AppError → Int
  | .mk _ c _ _ _ _ _ _ => c

/-- Field accessor for `AppError.Message`. -/
def AppError.Message : AppError → Str
  | .mk _ _ m _ _ _ _ _ => m

/-- Field accessor for `AppError.Details`. -/
def AppError.Details : AppError → List (Str × Value)
  | .mk _ _ _ d _ _ _ _ => d

/-- Field accessor for `AppError.Data`. -/
def AppError.Data : AppError → List (Str × Value)
  | .mk _ _ _ _ da _ _ _ => da

/-- Field accessor for `AppError.Cause`. -/
def AppError.Cause : AppError → Option GoError
  | .mk _ _ _ _ _ cs _ _ => cs

/-- Field accessor for `AppError.RequestID`. -/
def AppError.RequestID : AppError → Str
  | .mk _ _ _ _ _ _ r _ => r

/-- Field accessor for the private `AppError.logLevel`. -/
def AppError.logLevelF : AppError → Str
  | .mk _ _ _ _ _ _ _ lv => lv

/-- Embedding of the `Error()` method of `*AppError` (`error.go`). -/
def AppError.ErrorMsg (e : AppError) : Str := e.Message

/-- The `Error()` method of a Go error value. -/
def GoError.ErrorMsg : GoError → Str
  | .plain m => m
  | .appE e => e.Message

/-- The `ErrorType` constant `BusinessError` of `error.go`. -/
def BusinessError : Str := "BUSINESS".data

/-- The `ErrorType` constant `SystemError` of `error.go`. -/
def SystemError : Str := "SYSTEM".data

/-- The `ErrorType` constant `ValidationError` of `error.go`. -/
def ValidationError : Str := "VALIDATION".data

/-- The `ErrorType` constant `AuthError` of `error.go`. -/
def AuthError : Str := "AUTH".data

/-- The `ErrorType` constant `ExternalError` of `error.go`. -/
def ExternalError : Str := "EXTERNAL".data

/-- The `ErrorType` constant `PanicError` of `error.go`. -/
def PanicError : Str := "PANIC".data

/-- Embedding of the fluent `WithData` mutator of `error.go`. -/
def AppError.WithData (e : AppError) (data : List (Str × Value)) : AppError :=
  match e with
  | .mk t c m d _ cs r lv => .mk t c m d data cs r lv

/-- Embedding of the fluent `Level` mutator of `error.go`. -/
def AppError.Level (e : AppError) (level : Str) : AppError :=
  match e with
  | .mk t c m d da cs r _ => .mk t c m d da cs r level

/-- Embedding of `GetLogLevel` from `error.go`: the custom level when
non-empty, otherwise the default level chosen by the type switch. -/
def AppError.GetLogLevel (e : AppError) : Str :=
  if e.logLevelF ≠ [] then e.logLevelF
  else if e.ErrType = ValidationError ∨ e.ErrType = AuthError then "warn".data
  else if e.ErrType = PanicError ∨ e.ErrType = SystemError then "error".data
  else if e.ErrType = BusinessError ∨ e.ErrType = ExternalError then "error".data
  else "error".data

/-- Rendering of `fmt.Sprintf("%s:%d", file, line)`. -/
def fileLineStr (file : Str) (line : Int) : Str :=
  file ++ ":".data ++ intToStr line

/-- Concatenate strings with a separator. -/
def joinWith (sep : Str) : List Str → Str
  | [] => []
  | [x] => x
  | x :: y :: t => x ++ sep ++ joinWith sep (y :: t)

mutual

/-- Model of `fmt.Sprintf("%v", v)` on the stored values. -/
def fmtV : Value → Str
  | .str s => s
  | .int n => intToStr n
  | .strList l => "[".data ++ joinWith " ".data l ++ "]".data
  | .vmap m => "map[".data ++ joinWith " ".data (fmtVEntries m) ++ "]".data

/-- Render the entries of a map value as `key:value` strings. -/
def fmtVEntries : List (Str × Value) → List Str
  | [] => []
  | p :: t => (p.1 ++ ":".data ++ fmtV p.2) :: fmtVEntries t

end

/-- Embedding of `Wrap` from `error.go`: `nil` propagates, otherwise a
`SystemError` with code 500 is built around the original error, with the
caller location stored under `function` and `file`. -/
def Wrap (cfg : StackTraceConfig) (rc : CallerFrame) (err : Option GoError) :
    Option AppError :=
  match err with
  | none => none
  | some e =>
    let fli := getCallerInfo cfg rc
    some (.mk SystemError 500 e.ErrorMsg
      [("function".data, .str fli.2.2), ("file".data, .str (fileLineStr fli.1 fli.2.1))]
      [] (some e) [] [])

/-- Embedding of `WrapWithMessage` from `error.go`. -/
def WrapWithMessage (cfg : StackTraceConfig) (rc : CallerFrame)
    (err : Option GoError) (message : Str) : Option AppError :=
  match err with
  | none => none
  | some e =>
    let fli := getCallerInfo cfg rc
    some (.mk SystemError 500 message
      [("function".data, .str fli.2.2), ("file".data, .str (fileLineStr fli.1 fli.2.1))]
      [] (some e) [] [])

/-- Embedding of `NewBusinessError` from `error.go`. -/
def NewBusinessError (cfg : StackTraceConfig) (rc : CallerFrame)
    (code : Int) (msg : Str) : AppError :=
  let fli := getCallerInfo cfg rc
  .mk BusinessError code msg
    [("function".data, .str fli.2.2), ("file".data, .str (fileLineStr fli.1 fli.2.1))]
    [] none [] []

/-- Embedding of `NewSystemError` from `error.go`. -/
def NewSystemError (cfg : StackTraceConfig) (rc : CallerFrame)
    (err : Option GoError) : AppError :=
  let fli := getCallerInfo cfg rc
  .mk SystemError 500 "Internal server error".data
    [("function".data, .str fli.2.2), ("file".data, .str (fileLineStr fli.1 fli.2.1))]
    [] err [] []

/-- Embedding of `NewValidationError` from `error.go`: the status code is
the literal 400 and the caller-supplied map lands in `Data`. -/
def NewValidationError (cfg : StackTraceConfig) (rc : CallerFrame)
    (msg : Str) (data : List (Str × Value)) : AppError :=
  let fli := getCallerInfo cfg rc
  .mk ValidationError 400 msg
    [("function".data, .str fli.2.2), ("file".data, .str (fileLineStr fli.1 fli.2.1))]
    data none [] []

/-- Embedding of `NewAuthError` from `error.go`. -/
def NewAuthError (cfg : StackTraceConfig) (rc : CallerFrame)
    (code : Int) (msg : Str) : AppError :=
  let fli := getCallerInfo cfg rc
  .mk AuthError code msg
    [("function".data, .str fli.2.2), ("file".data, .str (fileLineStr fli.1 fli.2.1))]
    [] none [] []

/-- Embedding of `NewExternalError` from `error.go`. -/
def NewExternalError (cfg : StackTraceConfig) (rc : CallerFrame)
    (code : Int) (msg : Str) (cause : Option GoError) : AppError :=
  let fli := getCallerInfo cfg rc
  .mk ExternalError code msg
    [("function".data, .str fli.2.2), ("file".data, .str (fileLineStr fli.1 fli.2.1))]
    [] cause [] []

/-- Embedding of `HandlePanic` from `handler.go`, with the raw
`debug.Stack()` text supplied as the `stack` argument and the recovered
panic value as a `Value`. -/
def HandlePanic (cfg : StackTraceConfig) (stack : Str) (r : Value)
    (requestID : Str) : AppError :=
  let apl := getActualPanicLocation cfg stack
  let callChain := formatStackTraceArray cfg stack
  .mk PanicError 500 ("Panic recovered: ".data ++ fmtV r)
    [("panic_value".data, r),
     ("function".data, .str apl.2.2),
     ("file".data, .str (fileLineStr apl.1 apl.2.1)),
     ("call_chain".data, .strList callChain)]
    [] none requestID []

/-- Embedding of `ConvertToAppError` from `handler.go`: an input that is
already a `*AppError` only gets its `RequestID` updated; anything else is
wrapped as a generic 500 `SystemError` with the original error as cause
and no `Details`. -/
def ConvertToAppError (err : GoError) (requestID : Str) : AppError :=
  match err with
  | .appE a =>
    (match a with
     | .mk t c m d da cs _ lv => .mk t c m d da cs requestID lv)
  | .plain m =>
    .mk SystemError 500 "Internal server error".data [] []
      (some (.plain m)) requestID []

/-- Assignment `m[k] = v` on a Go map modelled as an association list:
overwrite the entry in place when the key exists, append otherwise. -/
def insertF (m : List (Str × Value)) (k : Str) (v : Value) : List (Str × Value) :=
  if m.any (fun p => p.1 = k) then
    m.map (fun p => if p.1 = k then (k, v) else p)
  else m ++ [(k, v)]

/-- Lookup `m[k]` on a Go map modelled as an association list. -/
def lookupF (m : List (Str × Value)) (k : Str) : Option Value :=
  match m with
  | [] => none
  | p :: t => if p.1 = k then some p.2 else lookupF t k

/-- One leveled call on the `Logger` interface of `logger.go`. -/
inductive LogCall : Type where
  | panicC (msg : Str) (fields : List (Str × Value))
  | errorC (msg : Str) (fields : List (Str × Value))
  | warnC (msg : Str) (fields : List (Str × Value))
  | infoC (msg : Str) (fields : List (Str × Value))
  | debugC (msg : Str) (fields : List (Str × Value))
  | traceC (msg : Str) (fields : List (Str × Value))

/-- Embedding of `LogError` from `logger.go`: skip everything when no
logger is configured, otherwise assemble the field map (base entries,
then `Details`, then `data` when non-empty, then `cause` when present)
and dispatch on `GetLogLevel`, defaulting to the error call. -/
def LogError (hasLogger : Bool) (appErr : AppError) (requestPath : Str) :
    Option LogCall :=
  if hasLogger = false then none
  else
    let fields := [("error_type".data, Value.str appErr.ErrType),
                   ("path".data, Value.str requestPath)]
    let fields := appErr.Details.foldl (fun m p => insertF m p.1 p.2) fields
    let fields :=
      if 0 < appErr.Data.length then insertF fields "data".data (.vmap appErr.Data)
      else fields
    let fields :=
      match appErr.Cause with
      | some c => insertF fields "cause".data (.str c.ErrorMsg)
      | none => fields
    let logLevel := appErr.GetLogLevel
    if logLevel = "panic".data then some (.panicC appErr.Message fields)
    else if logLevel = "error".data then some (.errorC appErr.Message fields)
    else if logLevel = "warn".data then some (.warnC appErr.Message fields)
    else if logLevel = "info".data then some (.infoC appErr.Message fields)
    else if logLevel = "debug".data then some (.debugC appErr.Message fields)
    else if logLevel = "trace".data then some (.traceC appErr.Message fields)
    else some (.errorC appErr.Message fields)

/-- Embedding of `FormatErrorResponse` from `logger.go`. -/
def FormatErrorResponse (appErr : AppError) : List (Str × Value) :=
  [("error".data, .str appErr.Message), ("type".data, .str appErr.ErrType)]

/-- The field map assembled inside `LogError` (`logger.go`), named so the
dispatched call can be characterized: base entries, then `Details`, then
`data` when non-empty, then `cause` when present. -/
def logFieldsImpl (appErr : AppError) (requestPath : Str) : List (Str × Value) :=
  let fields := [("error_type".data, Value.str appErr.ErrType),
                 ("path".data, Value.str requestPath)]
  let fields := appErr.Details.foldl (fun m p => insertF m p.1 p.2) fields
  let fields :=
    if 0 < appErr.Data.length then insertF fields "data".data (.vmap appErr.Data)
    else fields
  match appErr.Cause with
  | some c => insertF fields "cause".data (.str c.ErrorMsg)
  | none => fields

/-- Dispatch table stated from the spec's words: the leveled write
operation matching the resolved severity, with any unrecognized severity
string falling back to the error operation. -/
def dispatchCall (lv msg : Str) (fields : List (Str × Value)) : LogCall :=
  if lv = "panic".data then .panicC msg fields
  else if lv = "error".data then .errorC msg fields
  else if lv = "warn".data then .warnC msg fields
  else if lv = "info".data then .infoC msg fields
  else if lv = "debug".data then .debugC msg fields
  else if lv = "trace".data then .traceC msg fields
  else .errorC msg fields

/-- Value associated with a key by the LAST entry of an association list
that mentions it (matching Go map iteration where later writes win). -/
def lastLookup : List (Str × Value) → Str → Option Value
  | [], _ => none
  | p :: t, k =>
    match lastLookup t k with
    | some v => some v
    | none => if p.1 = k then some p.2 else none

/-- Field-map specification written from the spec's words (claim C8), to
be compared with the map `LogError` assembles: a `cause` entry when a
cause is present, a `data` entry when situational data is non-empty, the
`Details` entries, and the base `path`/`error_type` entries. -/
def routedFieldsRest (e : AppError) (path k : Str) : Option Value :=
  if k = "data".data ∧ e.Data.isEmpty = false then some (.vmap e.Data)
  else
    match lastLookup e.Details k with
    | some v => some v
    | none =>
      if k = "path".data then some (.str path)
      else if k = "error_type".data then some (.str e.ErrType)
      else none

/-- Top layer of the claim C8 field-map specification: the `cause` entry
overrides everything when a cause is present. -/
def routedFields (e : AppError) (path k : Str) : Option Value :=
  match e.Cause with
  | some c =>
    if k = "cause".data then some (.str c.ErrorMsg) else routedFieldsRest e path k
  | none => routedFieldsRest e path k

/-- Spec-side scan (claim C1): the lines strictly after the first line
whose trimmed form carries the `panic(` marker, if any. -/
def afterPanicMarker : List Str → Option (List Str)
  | [] => none
  | l0 :: rest =>
    if "panic(".data.isPrefixOf (trimSpace l0) then some rest
    else afterPanicMarker rest

/-- Spec-side scan (claim C1): the first line classified as application
code by `isUserFunction`, returned trimmed together with the lines after
it. -/
def firstUserFrame (cfg : StackTraceConfig) : List Str → Option (Str × List Str)
  | [] => none
  | l0 :: rest =>
    if isUserFunction cfg (trimSpace l0) then some (trimSpace l0, rest)
    else firstUserFrame cfg rest

/-- The include-list configuration of claim C2. -/
def appOnlyConfig : StackTraceConfig :=
  { defaultConfig with IncludePackages := ["app".data] }

/-- An include-list configuration accepting `main.*` frames, used to
exhibit the no-marker behaviour of `getActualPanicLocation`. -/
def mainOnlyConfig : StackTraceConfig :=
  { defaultConfig with IncludePackages := ["main".data] }

/-! Association-list lemmas about `insertF`, `lookupF` and `lastLookup`. -/

theorem lookupF_append (m l : List (Str × Value)) (k : Str) :
    lookupF (m ++ l) k =
      match lookupF m k with
      | some v => some v
      | none => lookupF l k := by
  induction m with
  | nil => simp [lookupF]
  | cons p t ih =>
    by_cases hp : p.1 = k
    · simp [lookupF, hp]
    · simp [lookupF, hp, ih]

theorem lookupF_eq_none_of_any_eq_false {m : List (Str × Value)} {k : Str}
    (h : m.any (fun p => p.1 = k) = false) : lookupF m k = none := by
  induction m with
  | nil => rfl
  | cons p t ih =>
    simp only [List.any_cons, Bool.or_eq_false_iff, decide_eq_false_iff_not] at h
    simp [lookupF, h.1, ih h.2]

theorem lookupF_map_replace_self {m : List (Str × Value)} {k : Str} (v : Value)
    (h : m.any (fun p => p.1 = k) = true) :
    lookupF (m.map (fun p => if p.1 = k then (k, v) else p)) k = some v := by
  induction m with
  | nil => simp at h
  | cons p t ih =>
    by_cases hp : p.1 = k
    · simp [lookupF, hp]
    · simp only [List.any_cons, Bool.or_eq_true, decide_eq_true_eq] at h
      rcases h with h | h

      · exact absurd h hp
      · simp [lookupF, hp, ih h]

theorem lookupF_map_replace_ne {m : List (Str × Value)} {k k' : Str} (v : Value)
    (h : k' ≠ k) :
    lookupF (m.map (fun p => if p.1 = k then (k, v) else p)) k' = lookupF m k' := by
  induction m with
  | nil => rfl
  | cons p t ih =>
    by_cases hp : p.1 = k
    · have h1 : ¬k = k' := fun he => h he.symm
      have h2 : ¬p.1 = k' := by rw [hp]; exact h1
      simp only [List.map_cons, lookupF, if_pos hp]
      rw [if_neg h1, if_neg h2, ih]
    · simp only [List.map_cons, lookupF, if_neg hp]
      rw [ih]

theorem lookupF_insertF_self (m : List (Str × Value)) (k : Str) (v : Value) :
    lookupF (insertF m k v) k = some v := by
  unfold insertF
  by_cases h : m.any (fun p => p.1 = k) = true
  · rw [if_pos h]; exact lookupF_map_replace_self v h
  · rw [if_neg h, lookupF_append,
      lookupF_eq_none_of_any_eq_false (Bool.not_eq_true _ ▸ h)]
    simp [lookupF]

theorem lookupF_insertF_ne (m : List (Str × Value)) (k k' : Str) (v : Value)
    (h : k' ≠ k) :
    lookupF (insertF m k v) k' = lookupF m k' := by
  unfold insertF
  by_cases hm : m.any (fun p => p.1 = k) = true
  · rw [if_pos hm]; exact lookupF_map_replace_ne v h
  · rw [if_neg hm, lookupF_append]
    cases hk : lookupF m k' with
    | some v' => rfl
    | none =>
      have h1 : ¬k = k' := fun he => h he.symm
      simp [lookupF, h1]

theorem lookupF_foldl (ds : List (Str × Value)) (m : List (Str × Value)) (k : Str) :
    lookupF (ds.foldl (fun m p => insertF m p.1 p.2) m) k =
      match lastLookup ds k with
      | some v => some v
      | none => lookupF m k := by
  induction ds generalizing m with
  | nil => rfl
  | cons p t ih =>
    simp only [List.foldl_cons, lastLookup]
    rw [ih]
    cases ht : lastLookup t k with
    | some v => rfl
    | none =>
      by_cases hp : p.1 = k
      · subst hp
        simp [lookupF_insertF_self]
      · rw [if_neg hp, lookupF_insertF_ne _ _ _ _ (fun he => hp he.symm)]

/-! Claim theorems. -/

/-- Claim C5: when the input of `ConvertToAppError` is already an
`AppError`, the result is that object with its `RequestID` set to the
supplied value and every other field (`Type`, `Code`, `Message`,
`Details`, `Data`, `Cause`, log-level override) unchanged. -/
theorem convertToAppError_preserves_fields (a : AppError) (rid : Str) :
    (ConvertToAppError (.appE a) rid).ErrType = a.ErrType ∧
    (ConvertToAppError (.appE a) rid).Code = a.Code ∧
    (ConvertToAppError (.appE a) rid).Message = a.Message ∧
    (ConvertToAppError (.appE a) rid).Details = a.Details ∧
    (ConvertToAppError (.appE a) rid).Data = a.Data ∧
    (ConvertToAppError (.appE a) rid).Cause = a.Cause ∧
    (ConvertToAppError (.appE a) rid).logLevelF = a.logLevelF ∧
    (ConvertToAppError (.appE a) rid).RequestID = rid := by
  cases a
  exact ⟨rfl, rfl, rfl, rfl, rfl, rfl, rfl, rfl⟩

/-- Claim C6: a nil input error makes both `Wrap` and `WrapWithMessage`
return nil, for every configuration, caller frame and message. -/
theorem wrap_nil_returns_nil (cfg : StackTraceConfig) (rc : CallerFrame)
    (message : Str) :
    Wrap cfg rc none = none ∧ WrapWithMessage cfg rc none message = none :=
  ⟨rfl, rfl⟩

/-- Claim C10: with no logger configured, `LogError` performs no sink
call and returns without failing, for every error and request path. -/
theorem logError_without_logger_is_noop (e : AppError) (path : Str) :
    LogError false e path = none :=
  rfl

/-- Claim C9: `FormatErrorResponse` yields exactly the keys `error` (the
message) and `type` (the kind) and no key derived from anything else. -/
theorem formatErrorResponse_exact_keys (e : AppError) :
    (FormatErrorResponse e).map Prod.fst = ["error".data, "type".data] ∧
    lookupF (FormatErrorResponse e) "error".data = some (.str e.Message) ∧
    lookupF (FormatErrorResponse e) "type".data = some (.str e.ErrType) ∧
    ∀ k : Str, k ≠ "error".data → k ≠ "type".data →
      lookupF (FormatErrorResponse e) k = none := by
  refine ⟨rfl, rfl, rfl, ?_⟩
  intro k h1 h2
  simp [FormatErrorResponse, lookupF, Ne.symm h1, Ne.symm h2]

/-- Witness for claim C9 at a concrete error and the key `cause`. -/
theorem formatErrorResponse_exact_keys_witness :
    lookupF (FormatErrorResponse
      (AppError.mk "SYSTEM".data 500 "boom".data [] [] none [] []))
      "cause".data = none :=
  (formatErrorResponse_exact_keys _).2.2.2 "cause".data (by decide) (by decide)

/-- Claim C4 (amended): at construction the status code is the
caller-supplied value for Business, Auth and External errors, the fixed
value 400 for Validation errors, and the fixed value 500 for System and
Panic errors (factories, both wraps, the panic handler and the plain
branch of `ConvertToAppError`). -/
theorem httpStatus_at_construction (cfg : StackTraceConfig) (rc : CallerFrame)
    (code : Int) (msg message : Str) (data : List (Str × Value))
    (cause : Option GoError) (e : GoError) (stack : Str) (r : Value)
    (rid m : Str) :
    (NewBusinessError cfg rc code msg).Code = code ∧
    (NewAuthError cfg rc code msg).Code = code ∧
    (NewExternalError cfg rc code msg cause).Code = code ∧
    (NewValidationError cfg rc msg data).Code = 400 ∧
    (NewSystemError cfg rc cause).Code = 500 ∧
    (Wrap cfg rc (some e)).map AppError.Code = some 500 ∧
    (WrapWithMessage cfg rc (some e) message).map AppError.Code = some 500 ∧
    (HandlePanic cfg stack r rid).Code = 500 ∧
    (ConvertToAppError (.plain m) rid).Code = 500 :=
  ⟨rfl, rfl, rfl, rfl, rfl, rfl, rfl, rfl, rfl⟩

/-- Counterexample to claim C4 as stated: the Validation factory takes
no status argument, and its code is the constant 400 regardless of every
caller-controllable input, so the Validation status is not
caller-supplied. -/
theorem validation_code_fixed_counterexample :
    (NewValidationError defaultConfig
      (.frame "/a/b.go".data 7 (some "main.f".data)) "msg".data []).Code = 400 ∧
    (NewValidationError defaultConfig .miss "other".data
      [("x".data, .int 1)]).Code = 400 :=
  ⟨rfl, rfl⟩

/-- Claim C3 (amended): every factory, both wraps and the panic handler
populate the `Details` keys `function` and `file` at construction, and
the caller-location resolver degrades to the sentinel triple when the
runtime yields no frame; but `ConvertToAppError` on a non-structured
error leaves `Details` empty. -/
theorem details_location_populated (cfg : StackTraceConfig) (rc : CallerFrame)
    (code : Int) (msg message : Str) (data : List (Str × Value))
    (cause : Option GoError) (e : GoError) (stack : Str) (r : Value)
    (rid m : Str) :
    ((lookupF (NewBusinessError cfg rc code msg).Details "function".data).isSome = true ∧
     (lookupF (NewBusinessError cfg rc code msg).Details "file".data).isSome = true) ∧
    ((lookupF (NewSystemError cfg rc cause).Details "function".data).isSome = true ∧
     (lookupF (NewSystemError cfg rc cause).Details "file".data).isSome = true) ∧
    ((lookupF (NewValidationError cfg rc msg data).Details "function".data).isSome = true ∧
     (lookupF (NewValidationError cfg rc msg data).Details "file".data).isSome = true) ∧
    ((lookupF (NewAuthError cfg rc code msg).Details "function".data).isSome = true ∧
     (lookupF (NewAuthError cfg rc code msg).Details "file".data).isSome = true) ∧
    ((lookupF (NewExternalError cfg rc code msg cause).Details "function".data).isSome = true ∧
     (lookupF (NewExternalError cfg rc code msg cause).Details "file".data).isSome = true) ∧
    (Wrap cfg rc (some e)).map
      (fun a => ((lookupF a.Details "function".data).isSome,
                 (lookupF a.Details "file".data).isSome)) = some (true, true) ∧
    (WrapWithMessage cfg rc (some e) message).map
      (fun a => ((lookupF a.Details "function".data).isSome,
                 (lookupF a.Details "file".data).isSome)) = some (true, true) ∧
    ((lookupF (HandlePanic cfg stack r rid).Details "function".data).isSome = true ∧
     (lookupF (HandlePanic cfg stack r rid).Details "file".data).isSome = true) ∧
    getCallerInfo cfg .miss = ("unknown".data, 0, "unknown".data) ∧
    (ConvertToAppError (.plain m) rid).Details = [] :=
  ⟨⟨rfl, rfl⟩, ⟨rfl, rfl⟩, ⟨rfl, rfl⟩, ⟨rfl, rfl⟩, ⟨rfl, rfl⟩,
   rfl, rfl, ⟨rfl, rfl⟩, rfl, rfl⟩

/-- Counterexample to claim C3 as stated: converting a plain error sets
no `Details` at all, so the `function` and `file` keys are absent even
though location resolution was never attempted, let alone failed. -/
theorem convertToAppError_location_missing_counterexample :
    lookupF (ConvertToAppError (.plain "db connection refused".data)
      "req-1".data).Details "function".data = none ∧
    lookupF (ConvertToAppError (.plain "db connection refused".data)
      "req-1".data).Details "file".data = none :=
  ⟨rfl, rfl⟩

/-- Claim C7: `GetLogLevel` returns a non-empty override verbatim; a
freshly constructed error (empty override) gets `warn` for Validation
and Auth kinds and `error` for every other kind string, including those
outside the closed enumeration; and repeated `Level` calls are
last-write-wins. -/
theorem getLogLevel_resolution :
    (∀ e : AppError, e.logLevelF ≠ [] → e.GetLogLevel = e.logLevelF) ∧
    (∀ (t : Str) (c : Int) (m : Str) (d da : List (Str × Value))
       (cs : Option GoError) (r : Str),
       (AppError.mk t c m d da cs r []).GetLogLevel =
         if t = ValidationError ∨ t = AuthError then "warn".data
         else "error".data) ∧
    (∀ (e : AppError) (a b : Str), ((e.Level a).Level b).logLevelF = b) ∧
    (∀ (e : AppError) (a b : Str), b ≠ [] →
       ((e.Level a).Level b).GetLogLevel = b) := by
  refine ⟨?_, ?_, ?_, ?_⟩
  · intro e h
    simp only [AppError.GetLogLevel]
    rw [if_pos h]
  · intro t c m d da cs r
    by_cases h1 : t = ValidationError ∨ t = AuthError
    · simp [AppError.GetLogLevel, AppError.logLevelF, AppError.ErrType, h1]
    · by_cases h2 : t = PanicError ∨ t = SystemError
      · simp [AppError.GetLogLevel, AppError.logLevelF, AppError.ErrType, h1, h2]
      · by_cases h3 : t = BusinessError ∨ t = ExternalError <;>
          simp [AppError.GetLogLevel, AppError.logLevelF, AppError.ErrType,
            h1, h2, h3]
  · intro e a b
    cases e
    rfl
  · intro e a b h
    cases e
    simp only [AppError.Level, AppError.GetLogLevel, AppError.logLevelF]
    rw [if_pos h]

/-- Witness for claim C7: a System error overridden to `error` and then
to `warn` resolves to `warn`. -/
theorem getLogLevel_resolution_witness :
    (((AppError.mk "SYSTEM".data 500 "m".data [] [] none [] []).Level
      "error".data).Level "warn".data).GetLogLevel = "warn".data :=
  getLogLevel_resolution.2.2.2 _ _ _ (by decide)

/-! Classification under the include-list configuration of claim C2. -/

theorem isUserFunction_appOnly (line : Str) :
    isUserFunction appOnlyConfig line =
      (!("runtime.".data.isPrefixOf line || "runtime/debug.".data.isPrefixOf line)
        && ("app.".data.isPrefixOf line || containsSub line "app.".data)) := by
  have hinc : appOnlyConfig.IncludePackages = ["app".data] := rfl
  have happ : ("app".data ++ ".".data : Str) = "app.".data := rfl
  unfold isUserFunction
  rw [hinc]
  cases hrt : ("runtime.".data.isPrefixOf line || "runtime/debug.".data.isPrefixOf line)
  · simp [happ]
  · simp

theorem isPrefixOf_eq_false_of_containsSub_eq_false {s sub : Str}
    (h : containsSub s sub = false) : sub.isPrefixOf s = false := by
  cases s with
  | nil =>
    cases sub with
    | nil => simp [containsSub] at h
    | cons c t => simp [List.isPrefixOf]
  | cons c t =>
    unfold containsSub at h
    exact (Bool.or_eq_false_iff.mp h).1

theorem isPrefixOf_append_self (l t : List Char) : l.isPrefixOf (l ++ t) = true := by
  induction l with
  | nil => cases t <;> rfl
  | cons a as ih => simp [List.isPrefixOf, ih]

theorem containsSub_append_appsub (rest : Str) :
    containsSub ("app/sub.".data ++ rest) "app.".data =
      containsSub rest "app.".data := rfl

theorem containsSub_append_otherlib (rest : Str) :
    containsSub ("otherlib.".data ++ rest) "app.".data =
      containsSub rest "app.".data := rfl

/-- Claim C2 (amended): with `IncludePackages = ["app"]` a frame line is
classified as application code exactly when it is not runtime-internal
and matches `"app."` as a prefix or substring; hence `app.*` frames are
accepted, while `app/sub.*` and `otherlib.*` frames are rejected because
the qualified names `app/sub.f` and `otherlib.f` do not contain the
string `"app."`. -/
theorem isUserFunction_include_app_semantics (line rest : Str) :
    ("runtime.".data.isPrefixOf line = false →
     "runtime/debug.".data.isPrefixOf line = false →
     containsSub line "app.".data = true →
     isUserFunction appOnlyConfig line = true) ∧
    (containsSub line "app.".data = false →
     isUserFunction appOnlyConfig line = false) ∧
    isUserFunction appOnlyConfig ("app.".data ++ rest) = true ∧
    (containsSub rest "app.".data = false →
     isUserFunction appOnlyConfig ("app/sub.".data ++ rest) = false) ∧
    (containsSub rest "app.".data = false →
     isUserFunction appOnlyConfig ("otherlib.".data ++ rest) = false) := by
  refine ⟨?_, ?_, ?_, ?_, ?_⟩
  · intro h1 h2 h3
    rw [isUserFunction_appOnly, h1, h2, h3]
    simp
  · intro h
    rw [isUserFunction_appOnly, h,
      isPrefixOf_eq_false_of_containsSub_eq_false h]
    simp
  · rw [isUserFunction_appOnly, isPrefixOf_append_self]
    rfl
  · intro h
    rw [isUserFunction_appOnly, containsSub_append_appsub, h]
    rfl
  · intro h
    rw [isUserFunction_appOnly, containsSub_append_otherlib, h]
    rfl

/-- Witness for claim C2 at a concrete sub-package frame line. -/
theorem isUserFunction_include_app_semantics_witness :
    isUserFunction appOnlyConfig ("app/sub.".data ++ "Handler(0x0)".data) = false :=
  (isUserFunction_include_app_semantics [] "Handler(0x0)".data).2.2.2.1 (by decide)

/-- Counterexample to claim C2 as stated: under
`IncludePackages = ["app"]` the `app/sub` frame is rejected, not
accepted, while `app` frames are accepted and `otherlib` frames
rejected. -/
theorem include_app_subpackage_counterexample :
    isUserFunction appOnlyConfig "app/sub.Handler(0x0)".data = false ∧
    isUserFunction appOnlyConfig "app.Handler(0x0)".data = true ∧
    isUserFunction appOnlyConfig "otherlib.Do(0x1)".data = false :=
  ⟨rfl, rfl, rfl⟩

/-! Characterization of the panic-site scan (claim C1). -/

theorem panicLocLoop_true_eq (cfg : StackTraceConfig) (lines : List Str) :
    panicLocLoop cfg lines true =
      match firstUserFrame cfg lines with
      | none => ([], 0, [])
      | some (l, rest) =>
        ((parseLocation rest).1, (parseLocation rest).2,
          formatFunctionName cfg (truncAtParen l)) := by
  induction lines with
  | nil => rfl
  | cons l0 rest ih =>
    simp only [panicLocLoop, firstUserFrame]
    cases hu : isUserFunction cfg (trimSpace l0)
    · simp [hu, ih]
    · simp [hu]

theorem panicLocLoop_false_eq (cfg : StackTraceConfig) (lines : List Str) :
    panicLocLoop cfg lines false =
      match afterPanicMarker lines with
      | none => ([], 0, [])
      | some rest => panicLocLoop cfg rest true := by
  induction lines with
  | nil => rfl
  | cons l0 rest ih =>
    simp only [panicLocLoop, afterPanicMarker]
    cases hm : "panic(".data.isPrefixOf (trimSpace l0)
    · simp [hm, ih]
    · simp [hm]

/-- Claim C1 (amended): `getActualPanicLocation` scans top-to-bottom and
frames become eligible only strictly after a `panic(` marker line; when a
marker is present it returns the location parsed from the first eligible
application-code frame and its following line, and it returns the
sentinel triple when no marker line exists, when no eligible frame
follows the marker, or when the location line fails to parse. -/
theorem getActualPanicLocation_marker_semantics (cfg : StackTraceConfig)
    (stack : Str) :
    getActualPanicLocation cfg stack =
      match afterPanicMarker (splitChar '\n' stack) with
      | none => ("unknown".data, 0, "unknown".data)
      | some rest =>
        match firstUserFrame cfg rest with
        | none => ("unknown".data, 0, "unknown".data)
        | some (l, rest') =>
          if (parseLocation rest').1 = [] then ("unknown".data, 0, "unknown".data)
          else ((parseLocation rest').1, (parseLocation rest').2,
            formatFunctionName cfg (truncAtParen l)) := by
  unfold getActualPanicLocation
  rw [panicLocLoop_false_eq]
  cases afterPanicMarker (splitChar '\n' stack) with
  | none => rfl
  | some rest =>
    dsimp only
    rw [panicLocLoop_true_eq]
    cases firstUserFrame cfg rest with
    | none => rfl
    | some p =>
      obtain ⟨l, rest'⟩ := p
      by_cases hfl : (parseLocation rest').1 = []
      · simp [hfl]
      · simp [hfl]

/-- Counterexample to claim C1 as stated: a trace whose first line is an
eligible application frame with a parseable location line, but which
contains no `panic(` marker; the claim promises that frame's location
`("main.go", 42, ...)`, yet the function returns the sentinel triple
because without a marker no frame is ever eligible. -/
theorem panicSite_no_marker_counterexample :
    isUserFunction mainOnlyConfig (trimSpace "main.doWork(0x0)".data) = true ∧
    (splitChar '\n' "main.doWork(0x0)\n\t/app/main.go:42 +0x1a\n".data).all
      (fun l => !("panic(".data.isPrefixOf (trimSpace l))) = true ∧
    getActualPanicLocation mainOnlyConfig
      "main.doWork(0x0)\n\t/app/main.go:42 +0x1a\n".data
      = ("unknown".data, 0, "unknown".data) ∧
    parseLocation ["\t/app/main.go:42 +0x1a".data] = ("main.go".data, 42) :=
  ⟨rfl, rfl, rfl, rfl⟩

/-! The field map and dispatch of `LogError` (claim C8). -/

theorem lookup_base (v1 v2 : Value) (k : Str) :
    lookupF [("error_type".data, v1), ("path".data, v2)] k =
      (if k = "path".data then some v2
       else if k = "error_type".data then some v1
       else none) := by
  have hne : ("error_type".data : Str) ≠ "path".data := by decide
  by_cases hp : k = "path".data
  · subst hp
    simp [lookupF, hne]
  · by_cases he : k = "error_type".data
    · subst he
      simp [lookupF]
    · simp [lookupF, hp, he, Ne.symm hp, Ne.symm he]

theorem lookup_stage1 (e : AppError) (path k : Str) :
    lookupF (e.Details.foldl (fun m p => insertF m p.1 p.2)
      [("error_type".data, Value.str e.ErrType), ("path".data, Value.str path)]) k =
      match lastLookup e.Details k with
      | some v => some v
      | none =>
        if k = "path".data then some (Value.str path)
        else if k = "error_type".data then some (Value.str e.ErrType)
        else none := by
  rw [lookupF_foldl]
  cases lastLookup e.Details k with
  | some v => rfl
  | none =>
    dsimp only
    exact lookup_base _ _ _

theorem lookup_stage2 (e : AppError) (path k : Str) :
    lookupF
      (if 0 < e.Data.length then
        insertF (e.Details.foldl (fun m p => insertF m p.1 p.2)
          [("error_type".data, Value.str e.ErrType), ("path".data, Value.str path)])
          "data".data (.vmap e.Data)
       else e.Details.foldl (fun m p => insertF m p.1 p.2)
          [("error_type".data, Value.str e.ErrType), ("path".data, Value.str path)]) k
    = routedFieldsRest e path k := by
  unfold routedFieldsRest
  by_cases hd : 0 < e.Data.length
  · rw [if_pos hd]
    by_cases hk : k = "data".data
    · have hne : e.Data.isEmpty = false := by
        cases h : e.Data with
        | nil => rw [h] at hd; simp at hd
        | cons a t => rfl
      subst hk
      rw [lookupF_insertF_self, if_pos ⟨rfl, hne⟩]
    · rw [if_neg (show ¬(k = "data".data ∧ e.Data.isEmpty = false) from
          fun hcon => hk hcon.1),
        lookupF_insertF_ne _ _ _ _ hk, lookup_stage1]
  · rw [if_neg hd]
    have hemp : e.Data.isEmpty = true := by
      cases h : e.Data with
      | nil => rfl
      | cons a t => rw [h] at hd; simp at hd
    rw [if_neg (show ¬(k = "data".data ∧ e.Data.isEmpty = false) by
        simp [hemp]),
      lookup_stage1]

theorem lookup_logFields (e : AppError) (path k : Str) :
    lookupF (logFieldsImpl e path) k = routedFields e path k := by
  unfold logFieldsImpl routedFields
  cases hc : e.Cause with
  | some c =>
    dsimp only
    by_cases hk : k = "cause".data
    · subst hk
      rw [lookupF_insertF_self, if_pos rfl]
    · rw [lookupF_insertF_ne _ _ _ _ hk, if_neg hk]
      exact lookup_stage2 e path k
  | none =>
    dsimp only
    exact lookup_stage2 e path k

theorem dispatch_helper (lv msg : Str) (flds : List (Str × Value)) :
    (if lv = "panic".data then some (LogCall.panicC msg flds)
     else if lv = "error".data then some (.errorC msg flds)
     else if lv = "warn".data then some (.warnC msg flds)
     else if lv = "info".data then some (.infoC msg flds)
     else if lv = "debug".data then some (.debugC msg flds)
     else if lv = "trace".data then some (.traceC msg flds)
     else some (.errorC msg flds))
    = some (dispatchCall lv msg flds) := by
  unfold dispatchCall
  split_ifs <;> rfl

theorem logError_eq_dispatch (e : AppError) (path : Str) :
    LogError true e path =
      some (dispatchCall e.GetLogLevel e.Message (logFieldsImpl e path)) :=
  dispatch_helper e.GetLogLevel e.Message (logFieldsImpl e path)

/-- Claim C8: `LogError` assembles a flat field map — `error_type` and
`path`, overridden by the `Details` entries, a `data` entry exactly when
situational data is non-empty, and a `cause` entry exactly when a cause
is present — and dispatches exactly the leveled call matching the
resolved severity, any unrecognized severity falling back to the error
call. -/
theorem logError_fields_and_dispatch (e : AppError) (path : Str) :
    ∃ fields : List (Str × Value),
      LogError true e path = some (dispatchCall e.GetLogLevel e.Message fields) ∧
      ∀ k : Str, lookupF fields k = routedFields e path k :=
  ⟨logFieldsImpl e path, logError_eq_dispatch e path,
    fun k => lookup_logFields e path k⟩

end Goerrorkit
